import Mathlib

/-!
Shallow embedding of the ecosystems repository's core computations.

Source files:
  * src/dependency.py            — compute_dependencies (dependency scorer)
  * src/biodiversity_footprint.py — compute_bank_biodiversity_footprint
    (propagation engine, exposure allocator, portfolio aggregator)

Modelling conventions:
  * pandas/numpy floats are modelled as ℚ (exact arithmetic);
  * a pandas NaN / missing value produced by an unmatched left join is
    modelled as `none : Option ℚ`; pandas' NaN-skipping `sum` becomes a
    sum of `Option.getD · 0`;
  * DataFrames keyed by (country, sector) are association lists with
    unique keys (the spec's stated identity-key invariant); `.loc` lookup
    with a KeyError fallback is `lookupBy`;
  * numpy's positional matrix arithmetic is `Matrix (Fin n) (Fin n) ℚ`,
    valid under the "same SectorKey universe in the same order" reading
    that the positional code relies on.
-/

/-- SectorKey = (country, sector), the identity key of every table. -/
abbrev SectorKey := String × String

/-- First-match lookup in an association list: models a pandas `.loc[k]`
(raising `KeyError` ↦ `none`) or an exact-key left join on a table with
unique keys. -/
def lookupBy {κ α : Type} [BEq κ] (tbl : List (κ × α)) (k : κ) : Option α :=
  (tbl.find? (fun r => r.1 == k)).map Prod.snd

/-! ## Dependency scorer (src/dependency.py, compute_dependencies) -/

/-- The all-zero service row (`pd.Series([0.0]*len(es_services))`). -/
def zeroRow (m : ℕ) : Fin m → ℚ := fun _ => 0

/-- Direct dependency of a firm key: the ENCORE row for (c, j), or the
zero vector when the key raises `KeyError`. -/
def depDirect {m : ℕ} (encore : List (SectorKey × (Fin m → ℚ))) (k : SectorKey) :
    Fin m → ℚ :=
  (lookupBy encore k).getD (zeroRow m)

/-- The weight vector built from a Leontief row: `row / row.sum()` when the
row sum is positive, otherwise the zero vector (`weights[:] = 0.0`). -/
def depWeights (rowL : List ℚ) : List ℚ :=
  if rowL.sum > 0 then rowL.map (fun x => x / rowL.sum)
  else rowL.map (fun _ => 0)

/-- Indirect dependency: `encore_ds_direct.mul(weights.values, axis=0).sum()`,
i.e. the weight-row multiplied into the ENCORE rows positionally and summed
down each service column; the zero vector when the firm key is absent from
the Leontief inverse (`KeyError`). -/
def depIndirect {m : ℕ} (encore : List (SectorKey × (Fin m → ℚ)))
    (L : List (SectorKey × List ℚ)) (k : SectorKey) : Fin m → ℚ :=
  match lookupBy L k with
  | none => zeroRow m
  | some rowL => fun s =>
      (List.zipWith (fun w r => w * r s) (depWeights rowL) (encore.map Prod.snd)).sum

/-- The saturating combination `total = direct + (1 - direct) * indirect`. -/
def total_combine (d i : ℚ) : ℚ := d + (1 - d) * i

/-- One output row of the dependency scorer. -/
structure DepScore (m : ℕ) where
  key : SectorKey
  direct : Fin m → ℚ
  indirect : Fin m → ℚ
  total : Fin m → ℚ

/-- The row computed for one firm key (c, j) in the loop body of
`compute_dependencies`. -/
def scoreRow {m : ℕ} (encore : List (SectorKey × (Fin m → ℚ)))
    (L : List (SectorKey × List ℚ)) (k : SectorKey) : DepScore m :=
  { key := k
    direct := depDirect encore k
    indirect := depIndirect encore L k
    total := fun s => total_combine (depDirect encore k s) (depIndirect encore L k s) }

/-- `compute_dependencies`: one output row appended per element of
`firm_keys = list(zip(firms.country, firms.sector))`, i.e. per firm row. -/
def compute_dependencies {m : ℕ} (firms : List SectorKey)
    (encore : List (SectorKey × (Fin m → ℚ)))
    (L : List (SectorKey × List ℚ)) : List (DepScore m) :=
  firms.map (scoreRow encore L)

/-! ### Helper lemmas for the dependency scorer -/

/-- A zip with an all-zero weight vector sums to zero. -/
lemma zipWith_zero_weights_sum {m : ℕ} (s : Fin m) (ws : List ℚ)
    (rows : List (Fin m → ℚ)) (hz : ∀ w ∈ ws, w = (0 : ℚ)) :
    (List.zipWith (fun w r => w * r s) ws rows).sum = 0 := by
  induction ws generalizing rows with
  | nil => simp
  | cons x xs ih =>
    cases rows with
    | nil => simp
    | cons r rs =>
      have hx : x = 0 := hz x (by simp)
      have hxs : ∀ w ∈ xs, w = (0 : ℚ) := fun w hw => hz w (by simp [hw])
      simp [List.zipWith, hx, ih rs hxs]

/-- Dividing every element by a constant divides the sum. -/
lemma sum_map_div (l : List ℚ) (c : ℚ) :
    (l.map (fun x => x / c)).sum = l.sum / c := by
  induction l with
  | nil => simp
  | cons x xs ih => simp [ih, add_div]

/-- A nonnegative-weighted sum of per-service values bounded in [a, b] is
bounded by a·Σw and b·Σw. -/
lemma weighted_sum_bounds {m : ℕ} (s : Fin m) (a b : ℚ) (ws : List ℚ)
    (rows : List (Fin m → ℚ)) (hlen : ws.length = rows.length)
    (hw : ∀ w ∈ ws, 0 ≤ w)
    (hlo : ∀ r ∈ rows, a ≤ r s) (hhi : ∀ r ∈ rows, r s ≤ b) :
    a * ws.sum ≤ (List.zipWith (fun w r => w * r s) ws rows).sum ∧
      (List.zipWith (fun w r => w * r s) ws rows).sum ≤ b * ws.sum := by
  induction ws generalizing rows with
  | nil => simp
  | cons w ws ih =>
    cases rows with
    | nil => simp at hlen
    | cons r rs =>
      have hw0 : 0 ≤ w := hw w (by simp)
      have hlo0 : a ≤ r s := hlo r (by simp)
      have hhi0 : r s ≤ b := hhi r (by simp)
      have hlen' : ws.length = rs.length := by simpa using hlen
      have hw' : ∀ x ∈ ws, 0 ≤ x := fun x hx => hw x (by simp [hx])
      have hlo' : ∀ x ∈ rs, a ≤ x s := fun x hx => hlo x (by simp [hx])
      have hhi' : ∀ x ∈ rs, x s ≤ b := fun x hx => hhi x (by simp [hx])
      obtain ⟨ihlo, ihhi⟩ := ih rs hlen' hw' hlo' hhi'
      constructor
      · simp only [List.zipWith, List.sum_cons]
        have h1 : a * w ≤ w * r s := by nlinarith
        nlinarith [ihlo]
      · simp only [List.zipWith, List.sum_cons]
        have h1 : w * r s ≤ b * w := by nlinarith
        nlinarith [ihhi]

/-! ## Propagation engine (src/biodiversity_footprint.py, lines 38–49)

`Ftot = leontief_inverse.T @ np.diag(direct_col)` followed by
`Ftot.sum(axis=1)`: transpose of the Leontief inverse times the diagonal
matrix of direct intensities, then row sums. -/

/-- `propagate_intensity L d`: row `i` of `Lᵀ · diag(d)` summed across
columns — the total (direct + upstream) intensity per unit output of the
sector at position `i`, positions following the shared SectorKey order. -/
def propagate_intensity {n : ℕ} (L : Matrix (Fin n) (Fin n) ℚ) (d : Fin n → ℚ) :
    Fin n → ℚ :=
  fun i => ∑ j, (Matrix.transpose L * Matrix.diagonal d) i j

/-! ## Exposure allocator and portfolio aggregator
(src/biodiversity_footprint.py, compute_bank_biodiversity_footprint) -/

/-- One loan-book row: `['bank_id', 'firm_id', 'loan_amount']`. -/
structure Loan where
  bank_id : String
  firm_id : String
  amount : ℚ
deriving DecidableEq

/-- One intensity row: `['msa_ghg_per_eur', 'msa_lu_per_eur']` (or the
derived `['msa_ghg_total_per_eur', 'msa_lu_total_per_eur']`). -/
structure IntensityRow where
  ghg : ℚ
  lu : ℚ
deriving DecidableEq

/-- The square Leontief DataFrame as a positional matrix over its own row
count (entries read positionally, as `leontief_inverse.T @ np.diag(...)`
does; the `getD 0` default never fires for a well-formed square table). -/
def toMatrix (L : List (SectorKey × List ℚ)) :
    Matrix (Fin L.length) (Fin L.length) ℚ :=
  Matrix.of fun i j => (L.get i).2.getD j 0

/-- The GHG direct-intensity column in table order
(`direct_intensity_vector['msa_ghg_per_eur'].values`). -/
def directVecGhg (direct : List (SectorKey × IntensityRow)) (n : ℕ) : Fin n → ℚ :=
  fun i => ((direct.map (fun r => r.2.ghg)).getD i 0)

/-- The land-use direct-intensity column in table order. -/
def directVecLu (direct : List (SectorKey × IntensityRow)) (n : ℕ) : Fin n → ℚ :=
  fun i => ((direct.map (fun r => r.2.lu)).getD i 0)

/-- `indirect_df`: total intensities per SectorKey, indexed by the Leontief
inverse's own row keys (`index=leontief_inverse.index`). -/
def totalsList (direct : List (SectorKey × IntensityRow))
    (L : List (SectorKey × List ℚ)) : List (SectorKey × IntensityRow) :=
  (List.finRange L.length).map (fun i =>
    ((L.get i).1,
     { ghg := propagate_intensity (toMatrix L) (directVecGhg direct L.length) i
       lu := propagate_intensity (toMatrix L) (directVecLu direct L.length) i }))

/-- Resolve a loan's counterparty to a SectorKey via the firm table
(`loan_data.merge(firm_info, on='firm_id', how='left')`): `none` models the
NaN country/sector of an unmatched left join. -/
def loanKey (fi : List (String × SectorKey)) (l : Loan) : Option SectorKey :=
  lookupBy fi l.firm_id

/-- `msa_ghg_direct = msa_ghg_per_eur * loan_amount`; `none` models the NaN
produced when the firm or its SectorKey is missing from a left join. -/
def loanDirectGhg (fi : List (String × SectorKey))
    (direct : List (SectorKey × IntensityRow)) (l : Loan) : Option ℚ :=
  (loanKey fi l).bind (fun k => (lookupBy direct k).map (fun r => r.ghg * l.amount))

/-- `msa_lu_direct = msa_lu_per_eur * loan_amount`. -/
def loanDirectLu (fi : List (String × SectorKey))
    (direct : List (SectorKey × IntensityRow)) (l : Loan) : Option ℚ :=
  (loanKey fi l).bind (fun k => (lookupBy direct k).map (fun r => r.lu * l.amount))

/-- `msa_ghg_total = msa_ghg_total_per_eur * loan_amount`. -/
def loanTotalGhg (fi : List (String × SectorKey))
    (direct : List (SectorKey × IntensityRow)) (L : List (SectorKey × List ℚ))
    (l : Loan) : Option ℚ :=
  (loanKey fi l).bind
    (fun k => (lookupBy (totalsList direct L) k).map (fun r => r.ghg * l.amount))

/-- `msa_lu_total = msa_lu_total_per_eur * loan_amount`. -/
def loanTotalLu (fi : List (String × SectorKey))
    (direct : List (SectorKey × IntensityRow)) (L : List (SectorKey × List ℚ))
    (l : Loan) : Option ℚ :=
  (loanKey fi l).bind
    (fun k => (lookupBy (totalsList direct L) k).map (fun r => r.lu * l.amount))

/-- pandas NaN-skipping sum: missing values contribute 0 to the group sum. -/
def optSum (xs : List (Option ℚ)) : ℚ := (xs.map (fun o => o.getD 0)).sum

/-- A bank's groupby-sum of `msa_ghg_total` over its loan rows. -/
def bankGhgSum (fi : List (String × SectorKey))
    (direct : List (SectorKey × IntensityRow)) (L : List (SectorKey × List ℚ))
    (loans : List Loan) (b : String) : ℚ :=
  optSum ((loans.filter (fun l => l.bank_id == b)).map (loanTotalGhg fi direct L))

/-- A bank's groupby-sum of `msa_lu_total` over its loan rows. -/
def bankLuSum (fi : List (String × SectorKey))
    (direct : List (SectorKey × IntensityRow)) (L : List (SectorKey × List ℚ))
    (loans : List Loan) (b : String) : ℚ :=
  optSum ((loans.filter (fun l => l.bank_id == b)).map (loanTotalLu fi direct L))

/-- The group keys of `df.groupby('bank_id')`: the distinct bank ids of the
loan book (pandas additionally sorts them; row order is immaterial to every
property stated below). -/
def bankIds (loans : List Loan) : List String :=
  (loans.map Loan.bank_id).dedup

/-- The numpy shape conditions under which the matrix arithmetic of the
source executes without raising: the Leontief table is square and its row
count equals the intensity table's. Nothing about key universes is checked
by the source. -/
def wellFormedb (direct : List (SectorKey × IntensityRow))
    (L : List (SectorKey × List ℚ)) : Bool :=
  L.length == direct.length && L.all (fun r => r.2.length == L.length)

/-- `compute_bank_biodiversity_footprint`: each bank's summed total GHG and
land-use MSA loss plus their grand total; `none` models the numpy/pandas
exception raised on dimension mismatch. -/
def compute_bank_biodiversity_footprint (loans : List Loan)
    (fi : List (String × SectorKey)) (direct : List (SectorKey × IntensityRow))
    (L : List (SectorKey × List ℚ)) : Option (List (String × ℚ × ℚ × ℚ)) :=
  if wellFormedb direct L then
    some ((bankIds loans).map (fun b =>
      (b, bankGhgSum fi direct L loans b, bankLuSum fi direct L loans b,
       bankGhgSum fi direct L loans b + bankLuSum fi direct L loans b)))
  else none

/-- Sums of optional values concatenate additively. -/
lemma optSum_append (xs ys : List (Option ℚ)) :
    optSum (xs ++ ys) = optSum xs + optSum ys := by
  simp [optSum]

/-! ## Claim theorems -/

/-- Claim C1: for a direct intensity table and Leontief inverse sharing the
same SectorKey universe in the same order (so position `i` stands for the
`i`-th SectorKey), `propagate_intensity` returns at every key the row-sum
of `Lᵀ · diag(d)`, namely `total[k] = ∑ k', L[k', k] * d[k']`; in
particular the identity Leontief inverse returns every direct intensity
unchanged, e.g. direct intensities 1e-6 and 2e-6 map to totals 1e-6 and
2e-6. -/
theorem C1_propagate_rowsum {n : ℕ} (L : Matrix (Fin n) (Fin n) ℚ) (d : Fin n → ℚ) :
    (∀ i, propagate_intensity L d i = ∑ j, L j i * d j) ∧
    (∀ i, propagate_intensity (1 : Matrix (Fin n) (Fin n) ℚ) d i = d i) ∧
    (∀ i, propagate_intensity (1 : Matrix (Fin 2) (Fin 2) ℚ)
        (fun j => if j = 0 then 1 / 1000000 else 2 / 1000000) i
      = if i = 0 then 1 / 1000000 else 2 / 1000000) := by
  have key : ∀ (M : Matrix (Fin n) (Fin n) ℚ) (i : Fin n),
      propagate_intensity M d i = ∑ j, M j i * d j := by
    intro M i
    unfold propagate_intensity
    refine Finset.sum_congr rfl (fun j _ => ?_)
    rw [Matrix.mul_diagonal]
    rfl
  have idcase : ∀ {p : ℕ} (e : Fin p → ℚ) (i : Fin p),
      propagate_intensity (1 : Matrix (Fin p) (Fin p) ℚ) e i = e i := by
    intro p e i
    unfold propagate_intensity
    have : ∀ j : Fin p,
        (Matrix.transpose (1 : Matrix (Fin p) (Fin p) ℚ) * Matrix.diagonal e) i j
          = if j = i then e j else 0 := by
      intro j
      rw [Matrix.mul_diagonal, Matrix.transpose_apply, Matrix.one_apply]
      by_cases h : j = i <;> simp [h]
    rw [Finset.sum_congr rfl (fun j _ => this j)]
    simp
  exact ⟨fun i => key L i, fun i => idcase d i, fun i => idcase _ i⟩

/-- Claim C6: scaling every entry of the direct intensity column by a
constant `k` scales every entry of `propagate_intensity`'s output by `k`. -/
theorem C6_linearity {n : ℕ} (L : Matrix (Fin n) (Fin n) ℚ) (d : Fin n → ℚ)
    (k : ℚ) (i : Fin n) :
    propagate_intensity L (fun j => k * d j) i = k * propagate_intensity L d i := by
  unfold propagate_intensity
  rw [Finset.mul_sum]
  refine Finset.sum_congr rfl (fun j _ => ?_)
  rw [Matrix.mul_diagonal, Matrix.mul_diagonal]
  ring

/-- Unfolding `depIndirect` on a present Leontief key. -/
lemma depIndirect_some {m : ℕ} (encore : List (SectorKey × (Fin m → ℚ)))
    (L : List (SectorKey × List ℚ)) (k : SectorKey) (rowL : List ℚ)
    (h : lookupBy L k = some rowL) :
    depIndirect encore L k = fun s =>
      (List.zipWith (fun w r => w * r s) (depWeights rowL) (encore.map Prod.snd)).sum := by
  unfold depIndirect
  rw [h]

/-- Unfolding `depIndirect` on an absent Leontief key. -/
lemma depIndirect_none {m : ℕ} (encore : List (SectorKey × (Fin m → ℚ)))
    (L : List (SectorKey × List ℚ)) (k : SectorKey)
    (h : lookupBy L k = none) :
    depIndirect encore L k = zeroRow m := by
  unfold depIndirect
  rw [h]

/-- An all-zero indirect score makes the total collapse to the direct score. -/
lemma total_eq_direct_of_indirect_zero {m : ℕ}
    (encore : List (SectorKey × (Fin m → ℚ))) (L : List (SectorKey × List ℚ))
    (k : SectorKey) (hz : depIndirect encore L k = zeroRow m) :
    (scoreRow encore L k).total = (scoreRow encore L k).direct := by
  funext s
  show total_combine (depDirect encore k s) (depIndirect encore L k s)
      = depDirect encore k s
  rw [hz]
  unfold total_combine zeroRow
  ring

/-- Claim C2: for a firm with SectorKey k the scorer returns: direct = the
ENCORE row for k (zero vector if absent); indirect = the zero vector when k
is absent from the Leontief inverse or its row sums to zero (and then
total = direct exactly); indirect = the row-normalised weighted average of
the ENCORE rows when the row sum is positive; and
total[s] = direct[s] + (1 - direct[s]) * indirect[s] for every service. -/
theorem C2_dependency_scores {m : ℕ} (encore : List (SectorKey × (Fin m → ℚ)))
    (L : List (SectorKey × List ℚ)) (k : SectorKey) :
    ((scoreRow encore L k).direct = (lookupBy encore k).getD (zeroRow m)) ∧
    (lookupBy L k = none →
      (scoreRow encore L k).indirect = zeroRow m ∧
      (scoreRow encore L k).total = (scoreRow encore L k).direct) ∧
    (∀ rowL, lookupBy L k = some rowL → rowL.sum = 0 →
      (scoreRow encore L k).indirect = zeroRow m ∧
      (scoreRow encore L k).total = (scoreRow encore L k).direct) ∧
    (∀ rowL, lookupBy L k = some rowL → 0 < rowL.sum →
      ∀ s, (scoreRow encore L k).indirect s =
        (List.zipWith (fun w r => w / rowL.sum * r s) rowL (encore.map Prod.snd)).sum) ∧
    (∀ s, (scoreRow encore L k).total s =
      (scoreRow encore L k).direct s +
        (1 - (scoreRow encore L k).direct s) * (scoreRow encore L k).indirect s) := by
  refine ⟨rfl, ?_, ?_, ?_, fun s => rfl⟩
  · intro hnone
    have hz := depIndirect_none encore L k hnone
    exact ⟨hz, total_eq_direct_of_indirect_zero encore L k hz⟩
  · intro rowL hsome hzero
    have hz : depIndirect encore L k = zeroRow m := by
      rw [depIndirect_some encore L k rowL hsome]
      funext s
      have hw : depWeights rowL = rowL.map (fun _ => 0) := by
        unfold depWeights
        rw [hzero]
        simp
      rw [hw]
      refine zipWith_zero_weights_sum s _ _ ?_
      intro w hwmem
      rcases List.mem_map.mp hwmem with ⟨x, _, hx⟩
      exact hx.symm
    exact ⟨hz, total_eq_direct_of_indirect_zero encore L k hz⟩
  · intro rowL hsome hpos s
    have hw : depWeights rowL = rowL.map (fun x => x / rowL.sum) := by
      unfold depWeights
      rw [if_pos hpos]
    show depIndirect encore L k s = _
    simp only [depIndirect_some encore L k rowL hsome, hw, List.zipWith_map_left]

/-- A concrete two-service ENCORE table used by witnesses. -/
def encoreW : List (SectorKey × (Fin 1 → ℚ)) :=
  [(("DE", "A"), fun _ => 1/2), (("FR", "B"), fun _ => 1/4)]

/-- A concrete one-row Leontief table (row [1, 3]) used by witnesses. -/
def LW : List (SectorKey × List ℚ) := [(("DE", "A"), [1, 3])]

/-- Witness for C2 at a concrete input whose Leontief row [1, 3] has a
positive sum: the indirect score is the normalised weighted average. -/
theorem C2_dependency_scores_witness :
    (lookupBy LW (("DE", "A") : SectorKey) = some [(1 : ℚ), 3]) ∧
    (0 : ℚ) < ([(1 : ℚ), 3]).sum ∧
    (scoreRow encoreW LW ("DE", "A")).indirect 0 =
      (List.zipWith (fun w r => w / ([(1 : ℚ), 3]).sum * r 0) [(1 : ℚ), 3]
        (encoreW.map Prod.snd)).sum :=
  ⟨by decide, by norm_num,
   (C2_dependency_scores encoreW LW ("DE", "A")).2.2.2.1
      [(1 : ℚ), 3] (by decide) (by norm_num) 0⟩

/-- Claim C8: when a firm's direct and indirect dependency scores for a
service both lie in [0, 1], the saturating total
`total = direct + (1 - direct) * indirect` also lies in [0, 1]. -/
theorem C8_total_bound {m : ℕ} (encore : List (SectorKey × (Fin m → ℚ)))
    (L : List (SectorKey × List ℚ)) (k : SectorKey) (s : Fin m)
    (h1 : 0 ≤ (scoreRow encore L k).direct s)
    (h2 : (scoreRow encore L k).direct s ≤ 1)
    (h3 : 0 ≤ (scoreRow encore L k).indirect s)
    (h4 : (scoreRow encore L k).indirect s ≤ 1) :
    0 ≤ (scoreRow encore L k).total s ∧ (scoreRow encore L k).total s ≤ 1 := by
  have ht : (scoreRow encore L k).total s =
      (scoreRow encore L k).direct s +
        (1 - (scoreRow encore L k).direct s) * (scoreRow encore L k).indirect s := rfl
  constructor
  · rw [ht]; nlinarith
  · rw [ht]; nlinarith

/-- Witness for C8 at the empty tables: direct and indirect are both 0,
and the total is in [0, 1]. -/
theorem C8_total_bound_witness :
    (0 ≤ (scoreRow ([] : List (SectorKey × (Fin 1 → ℚ))) [] ("DE", "A")).direct 0) ∧
    ((scoreRow ([] : List (SectorKey × (Fin 1 → ℚ))) [] ("DE", "A")).direct 0 ≤ 1) ∧
    (0 ≤ (scoreRow ([] : List (SectorKey × (Fin 1 → ℚ))) [] ("DE", "A")).indirect 0) ∧
    ((scoreRow ([] : List (SectorKey × (Fin 1 → ℚ))) [] ("DE", "A")).indirect 0 ≤ 1) ∧
    (0 ≤ (scoreRow ([] : List (SectorKey × (Fin 1 → ℚ))) [] ("DE", "A")).total 0 ∧
      (scoreRow ([] : List (SectorKey × (Fin 1 → ℚ))) [] ("DE", "A")).total 0 ≤ 1) :=
  ⟨by decide, by decide, by decide, by decide,
   C8_total_bound [] [] ("DE", "A") 0 (by decide) (by decide) (by decide) (by decide)⟩

/-- Claim C10 (implicit): when the Leontief row of a SectorKey is entrywise
nonnegative with positive sum and is aligned positionally with the direct
dependency table (same SectorKey universe in the same order, so equal
lengths), the indirect score for each service is a convex combination of
that service's direct values, hence lies between any entrywise lower bound
`a` and upper bound `b` of that service's column — in particular in [0, 1]
when every direct entry is. -/
theorem C10_indirect_convex {m : ℕ} (encore : List (SectorKey × (Fin m → ℚ)))
    (L : List (SectorKey × List ℚ)) (k : SectorKey) (s : Fin m)
    (rowL : List ℚ) (a b : ℚ)
    (hsome : lookupBy L k = some rowL)
    (hnn : ∀ x ∈ rowL, 0 ≤ x)
    (hpos : 0 < rowL.sum)
    (hlen : rowL.length = encore.length)
    (hlo : ∀ r ∈ encore, a ≤ r.2 s)
    (hhi : ∀ r ∈ encore, r.2 s ≤ b) :
    a ≤ depIndirect encore L k s ∧ depIndirect encore L k s ≤ b := by
  have hw : depWeights rowL = rowL.map (fun x => x / rowL.sum) := by
    unfold depWeights
    rw [if_pos hpos]
  have hws : (rowL.map (fun x => x / rowL.sum)).sum = 1 := by
    rw [sum_map_div]
    exact div_self (ne_of_gt hpos)
  have hlen' : (rowL.map (fun x => x / rowL.sum)).length = (encore.map Prod.snd).length := by
    simp [hlen]
  have hwnn : ∀ w ∈ rowL.map (fun x => x / rowL.sum), 0 ≤ w := by
    intro w hwm
    rcases List.mem_map.mp hwm with ⟨x, hx, rfl⟩
    exact div_nonneg (hnn x hx) (le_of_lt hpos)
  have hlo' : ∀ r ∈ encore.map Prod.snd, a ≤ r s := by
    intro r hr
    rcases List.mem_map.mp hr with ⟨p, hp, rfl⟩
    exact hlo p hp
  have hhi' : ∀ r ∈ encore.map Prod.snd, r s ≤ b := by
    intro r hr
    rcases List.mem_map.mp hr with ⟨p, hp, rfl⟩
    exact hhi p hp
  obtain ⟨hA, hB⟩ := weighted_sum_bounds s a b (rowL.map (fun x => x / rowL.sum))
    (encore.map Prod.snd) hlen' hwnn hlo' hhi'
  rw [hws, mul_one] at hA hB
  have hval : depIndirect encore L k s =
      (List.zipWith (fun w r => w * r s) (rowL.map (fun x => x / rowL.sum))
        (encore.map Prod.snd)).sum := by
    show depIndirect encore L k s = _
    simp only [depIndirect_some encore L k rowL hsome, hw]
  rw [hval]
  exact ⟨hA, hB⟩

/-- Witness for C10 at the concrete tables `encoreW`, `LW`: the Leontief
row [1, 3] is nonnegative with sum 4, and the indirect score lies between
the service bounds 1/4 and 1/2. -/
theorem C10_indirect_convex_witness :
    (lookupBy LW (("DE", "A") : SectorKey) = some [(1 : ℚ), 3]) ∧
    (∀ x ∈ [(1 : ℚ), 3], 0 ≤ x) ∧
    ((0 : ℚ) < ([(1 : ℚ), 3]).sum) ∧
    (([(1 : ℚ), 3]).length = encoreW.length) ∧
    (∀ r ∈ encoreW, 1/4 ≤ r.2 0) ∧
    (∀ r ∈ encoreW, r.2 0 ≤ 1/2) ∧
    (1/4 ≤ depIndirect encoreW LW ("DE", "A") 0 ∧
      depIndirect encoreW LW ("DE", "A") 0 ≤ 1/2) :=
  ⟨by decide, by norm_num, by norm_num, by decide,
   by norm_num [encoreW], by norm_num [encoreW],
   C10_indirect_convex encoreW LW ("DE", "A") 0 [(1 : ℚ), 3] (1/4) (1/2)
     (by decide) (by norm_num) (by norm_num) (by decide)
     (by norm_num [encoreW]) (by norm_num [encoreW])⟩

/-- Claim C9 counterexample: with two firm rows sharing the single
SectorKey (DE, A), `compute_dependencies` emits two output rows — one per
firm row — while the firms' SectorKey universe has only one key, so the
output is not one row per SectorKey. -/
theorem C9_one_row_per_key_cex :
    (compute_dependencies (m := 1) [("DE", "A"), ("DE", "A")] [] []).length = 2 ∧
    (([("DE", "A"), ("DE", "A")] : List SectorKey).dedup).length = 1 := by
  constructor
  · rfl
  · decide

/-- Claim C9 (amended): `compute_dependencies` returns one output row per
firm row, in firm order, and the row depends only on the firm's SectorKey:
any two firm positions sharing a SectorKey receive identical direct,
indirect and total scores. -/
theorem C9_row_per_firm {m : ℕ} (firms : List SectorKey)
    (encore : List (SectorKey × (Fin m → ℚ))) (L : List (SectorKey × List ℚ))
    (i j : ℕ) (hi : i < firms.length) (hj : j < firms.length)
    (hk : firms.get ⟨i, hi⟩ = firms.get ⟨j, hj⟩) :
    (compute_dependencies firms encore L).length = firms.length ∧
    (compute_dependencies firms encore L).get? i
      = (compute_dependencies firms encore L).get? j := by
  constructor
  · simp [compute_dependencies]
  · unfold compute_dependencies
    rw [List.get?_map, List.get?_map, List.get?_eq_get hi, List.get?_eq_get hj, hk]

/-- Witness for the amended C9 at two firm rows sharing (DE, A). -/
theorem C9_row_per_firm_witness :
    (0 < ([("DE", "A"), ("DE", "A")] : List SectorKey).length) ∧
    (1 < ([("DE", "A"), ("DE", "A")] : List SectorKey).length) ∧
    (([("DE", "A"), ("DE", "A")] : List SectorKey).get ⟨0, by decide⟩
      = ([("DE", "A"), ("DE", "A")] : List SectorKey).get ⟨1, by decide⟩) ∧
    ((compute_dependencies (m := 1) [("DE", "A"), ("DE", "A")] [] []).length
        = ([("DE", "A"), ("DE", "A")] : List SectorKey).length ∧
      (compute_dependencies (m := 1) [("DE", "A"), ("DE", "A")] [] []).get? 0
        = (compute_dependencies (m := 1) [("DE", "A"), ("DE", "A")] [] []).get? 1) :=
  ⟨by decide, by decide, by decide,
   C9_row_per_firm [("DE", "A"), ("DE", "A")] [] [] 0 1 (by decide) (by decide)
     (by decide)⟩

/-- Claim C7: over fixed counterparty attributes and intensity tables, the
per-bank aggregated GHG and land-use totals of a disjoint union of two
exposure sets equal the sums of the per-bank aggregates of each set. -/
theorem C7_additivity (fi : List (String × SectorKey))
    (direct : List (SectorKey × IntensityRow)) (L : List (SectorKey × List ℚ))
    (A B : List Loan) (hdisj : ∀ a ∈ A, a ∉ B) (b : String) :
    bankGhgSum fi direct L (A ++ B) b
        = bankGhgSum fi direct L A b + bankGhgSum fi direct L B b ∧
      bankLuSum fi direct L (A ++ B) b
        = bankLuSum fi direct L A b + bankLuSum fi direct L B b := by
  constructor
  · unfold bankGhgSum
    rw [List.filter_append, List.map_append, optSum_append]
  · unfold bankLuSum
    rw [List.filter_append, List.map_append, optSum_append]

/-- Witness for C7 with two disjoint one-loan books. -/
theorem C7_additivity_witness :
    (∀ a ∈ [({ bank_id := "B1", firm_id := "F1", amount := 1 } : Loan)],
      a ∉ [({ bank_id := "B2", firm_id := "F2", amount := 2 } : Loan)]) ∧
    (bankGhgSum [] [] []
        ([({ bank_id := "B1", firm_id := "F1", amount := 1 } : Loan)]
          ++ [({ bank_id := "B2", firm_id := "F2", amount := 2 } : Loan)]) "B1"
      = bankGhgSum [] [] []
          [({ bank_id := "B1", firm_id := "F1", amount := 1 } : Loan)] "B1"
        + bankGhgSum [] [] []
            [({ bank_id := "B2", firm_id := "F2", amount := 2 } : Loan)] "B1" ∧
      bankLuSum [] [] []
          ([({ bank_id := "B1", firm_id := "F1", amount := 1 } : Loan)]
            ++ [({ bank_id := "B2", firm_id := "F2", amount := 2 } : Loan)]) "B1"
        = bankLuSum [] [] []
            [({ bank_id := "B1", firm_id := "F1", amount := 1 } : Loan)] "B1"
          + bankLuSum [] [] []
              [({ bank_id := "B2", firm_id := "F2", amount := 2 } : Loan)] "B1") :=
  ⟨by decide,
   C7_additivity [] [] []
     [({ bank_id := "B1", firm_id := "F1", amount := 1 } : Loan)]
     [({ bank_id := "B2", firm_id := "F2", amount := 2 } : Loan)]
     (by decide) "B1"⟩

/-! ### Concrete inputs for the error-handling claims -/

/-- One-loan book of bank B1 to firm F1. -/
def loansC3 : List Loan := [{ bank_id := "B1", firm_id := "F1", amount := 1 }]

/-- Firm F1 sits in SectorKey (IT, C). -/
def fiC3 : List (String × SectorKey) := [("F1", ("IT", "C"))]

/-- Direct intensity table over the universe {(DE, A), (FR, B)}. -/
def directC3 : List (SectorKey × IntensityRow) :=
  [(("DE", "A"), { ghg := 1, lu := 0 }), (("FR", "B"), { ghg := 2, lu := 0 })]

/-- Square Leontief inverse over the DIFFERENT universe {(DE, A), (IT, C)}:
its key universe disagrees with `directC3`'s. -/
def lC3 : List (SectorKey × List ℚ) :=
  [(("DE", "A"), [1, 0]), (("IT", "C"), [0, 1])]

/-- Position-0 GHG total of the mismatched tables. -/
lemma evalGhg0 : propagate_intensity (toMatrix lC3) (directVecGhg directC3 lC3.length)
    ⟨0, by decide⟩ = 1 := by
  show (∑ j : Fin 2, (Matrix.transpose (toMatrix lC3)
    * Matrix.diagonal (directVecGhg directC3 lC3.length)) ⟨0, by decide⟩ j) = 1
  rw [Fin.sum_univ_two, Matrix.mul_diagonal, Matrix.mul_diagonal,
    Matrix.transpose_apply, Matrix.transpose_apply,
    show toMatrix lC3 (0 : Fin 2) ⟨0, by decide⟩ = 1 from by decide,
    show toMatrix lC3 (1 : Fin 2) ⟨0, by decide⟩ = 0 from by decide,
    show directVecGhg directC3 lC3.length (0 : Fin 2) = 1 from by decide,
    show directVecGhg directC3 lC3.length (1 : Fin 2) = 2 from by decide]
  norm_num

/-- Position-1 GHG total of the mismatched tables: (FR, B)'s direct
intensity 2 lands positionally on the row labelled (IT, C). -/
lemma evalGhg1 : propagate_intensity (toMatrix lC3) (directVecGhg directC3 lC3.length)
    ⟨1, by decide⟩ = 2 := by
  show (∑ j : Fin 2, (Matrix.transpose (toMatrix lC3)
    * Matrix.diagonal (directVecGhg directC3 lC3.length)) ⟨1, by decide⟩ j) = 2
  rw [Fin.sum_univ_two, Matrix.mul_diagonal, Matrix.mul_diagonal,
    Matrix.transpose_apply, Matrix.transpose_apply,
    show toMatrix lC3 (0 : Fin 2) ⟨1, by decide⟩ = 0 from by decide,
    show toMatrix lC3 (1 : Fin 2) ⟨1, by decide⟩ = 1 from by decide,
    show directVecGhg directC3 lC3.length (0 : Fin 2) = 1 from by decide,
    show directVecGhg directC3 lC3.length (1 : Fin 2) = 2 from by decide]
  norm_num

/-- Position-0 land-use total of the mismatched tables. -/
lemma evalLu0 : propagate_intensity (toMatrix lC3) (directVecLu directC3 lC3.length)
    ⟨0, by decide⟩ = 0 := by
  show (∑ j : Fin 2, (Matrix.transpose (toMatrix lC3)
    * Matrix.diagonal (directVecLu directC3 lC3.length)) ⟨0, by decide⟩ j) = 0
  rw [Fin.sum_univ_two, Matrix.mul_diagonal, Matrix.mul_diagonal,
    Matrix.transpose_apply, Matrix.transpose_apply,
    show directVecLu directC3 lC3.length (0 : Fin 2) = 0 from by decide,
    show directVecLu directC3 lC3.length (1 : Fin 2) = 0 from by decide]
  norm_num

/-- Position-1 land-use total of the mismatched tables. -/
lemma evalLu1 : propagate_intensity (toMatrix lC3) (directVecLu directC3 lC3.length)
    ⟨1, by decide⟩ = 0 := by
  show (∑ j : Fin 2, (Matrix.transpose (toMatrix lC3)
    * Matrix.diagonal (directVecLu directC3 lC3.length)) ⟨1, by decide⟩ j) = 0
  rw [Fin.sum_univ_two, Matrix.mul_diagonal, Matrix.mul_diagonal,
    Matrix.transpose_apply, Matrix.transpose_apply,
    show directVecLu directC3 lC3.length (0 : Fin 2) = 0 from by decide,
    show directVecLu directC3 lC3.length (1 : Fin 2) = 0 from by decide]
  norm_num

/-- The totals table computed from the mismatched universes: positional
arithmetic silently attributes (FR, B)'s direct intensity to (IT, C). -/
lemma totalsC3 : totalsList directC3 lC3 =
    [(("DE", "A"), { ghg := 1, lu := 0 }), (("IT", "C"), { ghg := 2, lu := 0 })] := by
  unfold totalsList
  rw [show List.finRange lC3.length = [⟨0, by decide⟩, ⟨1, by decide⟩] from by decide]
  simp only [List.map_cons, List.map_nil, evalGhg0, evalGhg1, evalLu0, evalLu1]
  rw [show (lC3.get ⟨0, by decide⟩).1 = ("DE", "A") from by decide,
    show (lC3.get ⟨1, by decide⟩).1 = ("IT", "C") from by decide]

/-- Claim C3 fails on the code: with a square Leontief inverse whose
SectorKey universe disagrees with the direct intensity table's ((IT, C)
is missing from the intensity table and (FR, B) from the Leontief inverse),
`compute_bank_biodiversity_footprint` raises no ShapeMismatch and returns a
full result, silently attributing (FR, B)'s direct GHG intensity 2 to the
(IT, C) counterparty. -/
theorem C3_no_shape_mismatch_check :
    (lookupBy directC3 (("IT", "C") : SectorKey) = none) ∧
    (lookupBy lC3 (("FR", "B") : SectorKey) = none) ∧
    compute_bank_biodiversity_footprint loansC3 fiC3 directC3 lC3
      = some [("B1", 2, 0, 2)] :=
  ⟨by decide, by decide, by
    simp [compute_bank_biodiversity_footprint, bankIds, bankGhgSum,
      bankLuSum, optSum, loanTotalGhg, loanTotalLu, loanKey, lookupBy, totalsC3,
      loansC3, fiC3, show wellFormedb directC3 lC3 = true from by decide]⟩

/-- A loan book whose only exposure references the unknown counterparty
GHOST. -/
def loansC4 : List Loan := [{ bank_id := "B1", firm_id := "GHOST", amount := 5 }]

/-- Counterparty table that knows only firm F1. -/
def fiC4 : List (String × SectorKey) := [("F1", ("DE", "A"))]

/-- One-sector intensity table for the unknown-counterparty input. -/
def directC4 : List (SectorKey × IntensityRow) := [(("DE", "A"), { ghg := 1, lu := 1 })]

/-- One-sector identity Leontief inverse for the unknown-counterparty
input. -/
def lC4 : List (SectorKey × List ℚ) := [(("DE", "A"), [1])]

/-- Claim C4 fails on the code: the exposure to the unknown counterparty
GHOST resolves to no SectorKey (an unmatched left join, i.e. NaN), yet
`compute_bank_biodiversity_footprint` raises no UnknownCounterparty error
and returns a result in which the exposure silently contributes 0. -/
theorem C4_unknown_counterparty_no_failure :
    (loanKey fiC4 { bank_id := "B1", firm_id := "GHOST", amount := 5 } = none) ∧
    compute_bank_biodiversity_footprint loansC4 fiC4 directC4 lC4
      = some [("B1", 0, 0, 0)] :=
  ⟨by decide, by
    simp [compute_bank_biodiversity_footprint, bankIds, bankGhgSum,
      bankLuSum, optSum, loanTotalGhg, loanTotalLu, loanKey, lookupBy,
      loansC4, fiC4, show wellFormedb directC4 lC4 = true from by decide]⟩

/-! ### C5: exposures whose SectorKey is outside the intensity tables -/

/-- An exposure of bank B1 to firm F1. -/
def loanC5 : Loan := { bank_id := "B1", firm_id := "F1", amount := 5 }

/-- F1's SectorKey (XX, Z) is modeled in no intensity table. -/
def fiC5 : List (String × SectorKey) := [("F1", ("XX", "Z"))]

/-- Intensity table that does not contain (XX, Z). -/
def directC5 : List (SectorKey × IntensityRow) := [(("DE", "A"), { ghg := 1, lu := 1 })]

/-- Leontief inverse that does not contain (XX, Z). -/
def lC5 : List (SectorKey × List ℚ) := [(("DE", "A"), [1])]

/-- Claim C5 counterexample: for an exposure whose counterparty resolves to
the SectorKey (XX, Z) absent from the intensity tables, the allocated
per-pressure impacts are missing values (left-join NaN, `none`), not the
value zero the claim asserts. -/
theorem C5_missing_key_cex :
    loanKey fiC5 loanC5 = some ("XX", "Z") ∧
    loanDirectGhg fiC5 directC5 loanC5 = none ∧
    loanDirectLu fiC5 directC5 loanC5 = none ∧
    loanTotalGhg fiC5 directC5 lC5 loanC5 = none ∧
    loanTotalLu fiC5 directC5 lC5 loanC5 = none := by
  refine ⟨by decide, by decide, by decide, by decide, by decide⟩

/-- Claim C5 (amended): an exposure whose counterparty resolves to a
SectorKey absent from the intensity tables gets missing (NaN) per-pressure
impacts, not zero; the NaN-skipping portfolio aggregation then treats the
exposure as contributing exactly zero, and its entity still appears in the
aggregate rather than being excluded. -/
theorem C5_missing_key_zero_contribution (fi : List (String × SectorKey))
    (direct : List (SectorKey × IntensityRow)) (L : List (SectorKey × List ℚ))
    (loans : List Loan) (l : Loan) (k : SectorKey)
    (hk : loanKey fi l = some k)
    (hd : lookupBy direct k = none)
    (ht : lookupBy (totalsList direct L) k = none) :
    loanDirectGhg fi direct l = none ∧ loanDirectLu fi direct l = none ∧
    loanTotalGhg fi direct L l = none ∧ loanTotalLu fi direct L l = none ∧
    (∀ b, bankGhgSum fi direct L (loans ++ [l]) b = bankGhgSum fi direct L loans b) ∧
    (∀ b, bankLuSum fi direct L (loans ++ [l]) b = bankLuSum fi direct L loans b) ∧
    l.bank_id ∈ bankIds (loans ++ [l]) := by
  have h1 : loanDirectGhg fi direct l = none := by
    unfold loanDirectGhg
    rw [hk]
    simp [hd]
  have h2 : loanDirectLu fi direct l = none := by
    unfold loanDirectLu
    rw [hk]
    simp [hd]
  have h3 : loanTotalGhg fi direct L l = none := by
    unfold loanTotalGhg
    rw [hk]
    simp [ht]
  have h4 : loanTotalLu fi direct L l = none := by
    unfold loanTotalLu
    rw [hk]
    simp [ht]
  refine ⟨h1, h2, h3, h4, ?_, ?_, ?_⟩
  · intro b
    unfold bankGhgSum
    rw [List.filter_append, List.map_append, optSum_append]
    rcases hb : (l.bank_id == b) with _ | _
    · simp [List.filter_cons, hb, optSum]
    · simp [List.filter_cons, hb, optSum, h3]
  · intro b
    unfold bankLuSum
    rw [List.filter_append, List.map_append, optSum_append]
    rcases hb : (l.bank_id == b) with _ | _
    · simp [List.filter_cons, hb, optSum]
    · simp [List.filter_cons, hb, optSum, h4]
  · unfold bankIds
    rw [List.mem_dedup]
    exact List.mem_map.mpr ⟨l, by simp, rfl⟩

/-- Witness for the amended C5 at the concrete missing-key input. -/
theorem C5_missing_key_zero_contribution_witness :
    (loanKey fiC5 loanC5 = some ("XX", "Z")) ∧
    (lookupBy directC5 (("XX", "Z") : SectorKey) = none) ∧
    (lookupBy (totalsList directC5 lC5) (("XX", "Z") : SectorKey) = none) ∧
    (loanDirectGhg fiC5 directC5 loanC5 = none ∧
      loanDirectLu fiC5 directC5 loanC5 = none ∧
      loanTotalGhg fiC5 directC5 lC5 loanC5 = none ∧
      loanTotalLu fiC5 directC5 lC5 loanC5 = none ∧
      (∀ b, bankGhgSum fiC5 directC5 lC5 ([] ++ [loanC5]) b
        = bankGhgSum fiC5 directC5 lC5 [] b) ∧
      (∀ b, bankLuSum fiC5 directC5 lC5 ([] ++ [loanC5]) b
        = bankLuSum fiC5 directC5 lC5 [] b) ∧
      loanC5.bank_id ∈ bankIds ([] ++ [loanC5])) :=
  ⟨by decide, by decide, by decide,
   C5_missing_key_zero_contribution fiC5 directC5 lC5 [] loanC5 ("XX", "Z")
     (by decide) (by decide) (by decide)⟩
